import Mathlib

/-
Verification development for anyvec (src/lib.rs): a type-erased growable
vector.  The container stores elements of a type it does not know at compile
time; every type-aware operation dispatches through a per-type operation
table (vtable) and re-checks a runtime type token.

Embedding conventions:
- A Rust element type T is represented by a payload domain α together with a
  VTable α value carrying the TypeId token (a Nat), the display name, the
  element byte size, and the PartialEq implementation of T.  The vtable
  function pointers drop_vec, drop_slice, mv and reserve are instantiations
  of one generic algorithm, identical for every T up to the element type;
  they are modelled once by drop_vec_events, drop_slice_events and
  vecReserve below.  The clone pointer is not needed by any property here.
- The raw (pointer, length, capacity) buffer is represented by the list of
  its initialized elements (data, so length = data.length) plus the
  capacity field.  Slots in [length, capacity) are uninitialized and carry
  no value.
- A Rust panic is represented by an Except error; destructor side effects
  are represented by event lists (an event is the destroyed element itself,
  carrying its identity).
-/

set_option autoImplicit false

variable {α : Type}

/-- Model of the TypeMismatch panic raised by VTable::assert_typecheck
(src/lib.rs:47-55).  It carries the display name stored in the vtable and
the display name of the type asserted by the caller. -/
inductive Fault where
  | typeMismatch (stored : String) (asserted : String)
deriving DecidableEq

/-- Embeds vtable::VTable (src/lib.rs:11-22): the per-type operation table.
The field id models the TypeId token, display_name and size are as in the
source, and eq models the function pointer to the PartialEq implementation
of the element type.  The remaining function pointers are generic in the
element type and are modelled by the standalone functions below. -/
structure VTable (α : Type) where
  id : Nat
  display_name : String
  size : Nat
  eq : α → α → Bool

/-- Embeds impl PartialEq for VTable (src/lib.rs:58-62): two tables compare
equal exactly when their TypeId tokens are equal. -/
def VTable.beq (a b : VTable α) : Bool := a.id == b.id

/-- Embeds VTable::is (src/lib.rs:39-41): compares the TypeId of the type
asserted by the caller (here: the vtable of that type) with the stored id. -/
def VTable.is (self : VTable α) (t : VTable α) : Bool := t.id == self.id

/-- Embeds VTable::assert_typecheck (src/lib.rs:47-55): panics with the
TypeMismatch diagnostic when the caller-asserted type does not match. -/
def VTable.assert_typecheck (self : VTable α) (t : VTable α) : Except Fault Unit :=
  if self.is t then Except.ok ()
  else Except.error (Fault.typeMismatch self.display_name t.display_name)

/-- Embeds vtable::drop_vec (src/lib.rs:95-97): rebuilding the Vec from its
raw parts and letting it drop runs the destructor of each of the length
initialized elements exactly once, front to back, then frees the
allocation.  The emitted destruction events are the elements in index
order. -/
def drop_vec_events (data : List α) : List α := data

/-- Embeds vtable::drop_slice (src/lib.rs:99-102): drop_in_place on a slice
runs the destructor of each element of the span once, in index order. -/
def drop_slice_events (span : List α) : List α := span

/-- Modelled from the spec: the grow primitive behind vtable::reserve
(src/lib.rs:82-93) is Vec::reserve from the standard library, which is not
part of this repository.  Per its contract (spec section 4.1), it
reallocates only when capacity - length < additional, so that afterwards
capacity - length is at least additional, preserving length and contents;
the reallocation uses amortized doubling.  Returns the new capacity. -/
def vecReserve (additional length capacity : Nat) : Nat :=
  if additional ≤ capacity - length then capacity
  else max (2 * capacity) (length + additional)

/-- Embeds AnyRef (src/lib.rs:118-123): a non-owning view of one element.
The data pointer is represented by the referenced value; the phantom
lifetime marker has no computational content. -/
structure AnyRef (α : Type) where
  data : α
  vtable : VTable α

/-- Embeds AnyRef::new (src/lib.rs:126-132): wraps a reference to a typed
value, attaching the vtable of that type. -/
def AnyRef.new (t : VTable α) (x : α) : AnyRef α := { data := x, vtable := t }

/-- Embeds impl PartialEq of AnyRef against AnyRef (src/lib.rs:151-158):
unequal when the vtables differ (by TypeId token), otherwise delegates to
the eq primitive of the shared table on the two referenced values. -/
def AnyRef.eq_ref (self other : AnyRef α) : Bool :=
  if self.vtable.beq other.vtable then self.vtable.eq self.data other.data
  else false

/-- Embeds impl PartialEq of AnyRef against a typed value (src/lib.rs:141-149):
unequal when the vtable of the view differs from the vtable of the value
type, otherwise delegates to the eq primitive. -/
def AnyRef.eq_val (self : AnyRef α) (t : VTable α) (other : α) : Bool :=
  if self.vtable.beq t then self.vtable.eq self.data other
  else false

/-- Embeds AnyVec (src/lib.rs:160-165).  The data and length fields of the
source collapse into the data list (length = data.length); capacity and
vtable are as in the source. -/
structure AnyVec (α : Type) where
  data : List α
  capacity : Nat
  vtable : VTable α

/-- Embeds AnyVec::from_vec (src/lib.rs:174-182): takes ownership of the
raw parts of an existing typed Vec, with no element copies.  The capacity
of the incoming Vec is passed explicitly. -/
def AnyVec.from_vec (t : VTable α) (data : List α) (capacity : Nat) : AnyVec α :=
  { data := data, capacity := capacity, vtable := t }

/-- Embeds AnyVec::new (src/lib.rs:170-172): from_vec on a fresh empty Vec,
which has length 0 and capacity 0. -/
def AnyVec.new (t : VTable α) : AnyVec α := AnyVec.from_vec t [] 0

/-- Embeds AnyVec::assert_typecheck (src/lib.rs:184-186). -/
def AnyVec.assert_typecheck (v : AnyVec α) (t : VTable α) : Except Fault Unit :=
  v.vtable.assert_typecheck t

/-- Result of consuming a container back into a typed Vec.  returned is the
Vec handed to the caller; self_drop_events are the destructor events the
container itself emits during the call (none, because mem::forget(self) at
src/lib.rs:201 disarms its destructor on success). -/
structure Consumed (α : Type) where
  returned : List α
  self_drop_events : List α

/-- Embeds AnyVec::into_vec (src/lib.rs:196-203) at the level of ownership
transfer: typecheck, reinterpret the raw parts as a typed Vec, and disarm
the destructor of the container via mem::forget, so the container emits no
destruction events of its own and the returned Vec is the sole owner. -/
def AnyVec.consume (v : AnyVec α) (t : VTable α) : Except Fault (Consumed α) :=
  match v.assert_typecheck t with
  | Except.error e => Except.error e
  | Except.ok _ => Except.ok { returned := v.data, self_drop_events := [] }

/-- Embeds AnyVec::into_vec (src/lib.rs:196-203): the typed Vec returned to
the caller. -/
def AnyVec.into_vec (v : AnyVec α) (t : VTable α) : Except Fault (List α) :=
  (v.consume t).map Consumed.returned

/-- Embeds AnyVec::at (src/lib.rs:205-210): computes the address of slot n,
panicking when n is not below capacity.  An address of an initialized slot
is represented by its value; an address of an uninitialized slot in
[length, capacity) is represented by none. -/
def AnyVec.elemAt (v : AnyVec α) (n : Nat) : Except String (Option α) :=
  if n ≥ v.capacity then Except.error ("index not below capacity")
  else Except.ok (v.data.get? n)

/-- Embeds AnyVec::reserve (src/lib.rs:212-218): forwards size to the grow
primitive of the vtable, which preserves length and contents and updates
the buffer and capacity. -/
def AnyVec.reserve (v : AnyVec α) (size : Nat) : AnyVec α :=
  { v with capacity := vecReserve size v.data.length v.capacity }

/-- Result of a push: the new container state, the argument the call passed
to the grow primitive (via AnyVec::reserve), and the destructor events of
the pushed value during the call (none, because mem::forget(value) at
src/lib.rs:233 retires it without running its destructor). -/
structure PushResult (α : Type) where
  state : AnyVec α
  grow_request : Nat
  value_drop_events : List α

/-- Embeds AnyVec::push (src/lib.rs:221-235): calls self.reserve with
length + 1, move-relocates the bytes of the value into the slot at index
length, increments length, and forgets the value.  The source performs no
typecheck here: the caller type parameter T, modelled by the unused
argument, never influences the result.  The assert that capacity exceeds
length after the reserve always holds (push_assert_holds below). -/
def AnyVec.push (v : AnyVec α) (_t : VTable α) (x : α) : PushResult α :=
  let reserved := v.reserve (v.data.length + 1)
  { state := { reserved with data := reserved.data ++ [x] },
    grow_request := v.data.length + 1,
    value_drop_events := [] }

/-- Embeds AnyVec::truncate (src/lib.rs:237-246): no-op when the requested
length exceeds the current length, otherwise keeps the first new-length
elements and runs drop_slice on the removed span.  Returns the new state
and the destruction events. -/
def AnyVec.truncate (v : AnyVec α) (n : Nat) : AnyVec α × List α :=
  if n > v.data.length then (v, [])
  else ({ v with data := v.data.take n }, drop_slice_events (v.data.drop n))

/-- Embeds AnyVec::clear (src/lib.rs:248-250): truncate to length 0. -/
def AnyVec.clear (v : AnyVec α) : AnyVec α × List α := v.truncate 0

/-- Micro-events of one truncate call, used to observe the order of the
length update relative to the destructor calls. -/
inductive TruncEvent (α : Type) where
  | set_length (n : Nat)
  | dropped (x : α)
deriving DecidableEq

/-- Embeds AnyVec::truncate (src/lib.rs:237-246) as the sequence of its
observable steps, in source order: after the early return test, the source
first assigns self.length = length (line 244) and only then invokes
drop_slice on the removed span (line 245). -/
def AnyVec.truncateTrace (v : AnyVec α) (n : Nat) : List (TruncEvent α) :=
  if n > v.data.length then []
  else TruncEvent.set_length n ::
    (drop_slice_events (v.data.drop n)).map TruncEvent.dropped

/-- Embeds AnyVec::get (src/lib.rs:257-267): none when the index is not
below length (before any address computation), otherwise a view onto the
element at the index, built from the address computed by AnyVec::at.  The
branch for an uninitialized slot is unreachable because the index is below
length. -/
def AnyVec.get (v : AnyVec α) (i : Nat) : Except String (Option (AnyRef α)) :=
  if i ≥ v.data.length then Except.ok none
  else
    match v.elemAt i with
    | Except.error e => Except.error e
    | Except.ok none => Except.error ("unreachable: uninitialized slot below length")
    | Except.ok (some x) => Except.ok (some { data := x, vtable := v.vtable })

/-- Embeds AnyVec::first (src/lib.rs:269-271). -/
def AnyVec.first (v : AnyVec α) : Except String (Option (AnyRef α)) := v.get 0

/-- Embeds impl Drop for AnyVec (src/lib.rs:279-283): whole-container
destruction invokes the drop_vec primitive once on (data, length,
capacity). -/
def AnyVec.drop_events (v : AnyVec α) : List α := drop_vec_events v.data

/-- The public mutating operations of the container, for stating
invariants over arbitrary operation sequences. -/
inductive Op (α : Type) where
  | push (t : VTable α) (x : α)
  | reserve (n : Nat)
  | truncate (n : Nat)
  | clear

/-- Applies one public mutating operation to a container state. -/
def AnyVec.applyOp (v : AnyVec α) : Op α → AnyVec α
  | Op.push t x => (v.push t x).state
  | Op.reserve n => v.reserve n
  | Op.truncate n => (v.truncate n).1
  | Op.clear => (v.clear).1

/-- Concrete vtable standing for u64 in the tests of the source, with
payload domain Nat. -/
def tU64 : VTable Nat :=
  { id := 0, display_name := "u64", size := 8, eq := fun a b => a == b }

/-- Concrete vtable standing for u8, a second distinct type. -/
def tU8 : VTable Nat :=
  { id := 1, display_name := "u8", size := 1, eq := fun a b => a == b }

/- Helper lemmas shared by the claim theorems. -/

theorem push_state_data (v : AnyVec α) (t : VTable α) (x : α) :
    (v.push t x).state.data = v.data ++ [x] := rfl

theorem push_state_vtable (v : AnyVec α) (t : VTable α) (x : α) :
    (v.push t x).state.vtable = v.vtable := rfl

theorem push_state_capacity (v : AnyVec α) (t : VTable α) (x : α) :
    (v.push t x).state.capacity
      = vecReserve (v.data.length + 1) v.data.length v.capacity := rfl

theorem vecReserve_ge (additional length capacity : Nat) (h : 1 ≤ additional) :
    length + additional ≤ vecReserve additional length capacity := by
  unfold vecReserve
  split
  · omega
  · exact le_max_right _ _

theorem vecReserve_ge_capacity (additional length capacity : Nat) :
    capacity ≤ vecReserve additional length capacity := by
  unfold vecReserve
  split
  · exact le_refl _
  · exact le_trans (by omega) (le_max_left _ _)

theorem vecReserve_ge_length (additional length capacity : Nat)
    (h : length ≤ capacity) :
    length ≤ vecReserve additional length capacity := by
  unfold vecReserve
  split
  · exact h
  · exact le_trans (Nat.le_add_right _ _) (le_max_right _ _)

/-- The assert in AnyVec::push (src/lib.rs:223) always holds: after
reserving length + 1 additional slots, capacity strictly exceeds length. -/
theorem push_assert_holds (v : AnyVec α) :
    (v.reserve (v.data.length + 1)).data.length
      < (v.reserve (v.data.length + 1)).capacity := by
  show v.data.length < vecReserve (v.data.length + 1) v.data.length v.capacity
  have := vecReserve_ge (v.data.length + 1) v.data.length v.capacity (by omega)
  omega

/-- Pushing a whole list of values, front to back, with the caller type t. -/
def AnyVec.pushAll (v : AnyVec α) (t : VTable α) (xs : List α) : AnyVec α :=
  xs.foldl (fun acc x => (acc.push t x).state) v

theorem pushAll_data_vtable (t : VTable α) (xs : List α) (v : AnyVec α) :
    (v.pushAll t xs).data = v.data ++ xs ∧ (v.pushAll t xs).vtable = v.vtable := by
  induction xs generalizing v with
  | nil => simp [AnyVec.pushAll]
  | cons x xs ih =>
      have h := ih ((v.push t x).state)
      constructor
      · calc (v.pushAll t (x :: xs)).data
            = ((v.push t x).state.pushAll t xs).data := rfl
          _ = (v.push t x).state.data ++ xs := h.1
          _ = (v.data ++ [x]) ++ xs := by rw [push_state_data]
          _ = v.data ++ (x :: xs) := by simp
      · calc (v.pushAll t (x :: xs)).vtable
            = ((v.push t x).state.pushAll t xs).vtable := rfl
          _ = (v.push t x).state.vtable := h.2
          _ = v.vtable := rfl

theorem assert_typecheck_self (self : VTable α) :
    self.assert_typecheck self = Except.ok () := by
  simp [VTable.assert_typecheck, VTable.is]

theorem consume_ok (v : AnyVec α) (t : VTable α) (h : t.id = v.vtable.id) :
    v.consume t = Except.ok { returned := v.data, self_drop_events := [] } := by
  simp [AnyVec.consume, AnyVec.assert_typecheck, VTable.assert_typecheck, VTable.is, h]

/- Claim theorems. -/

/-- C2: for every typed collection, constructing a container from it and
then consuming it back as the same type yields the same collection,
preserving element order and values exactly. -/
theorem claim_C2_round_trip (t : VTable α) (l : List α) (c : Nat) :
    (AnyVec.from_vec t l c).into_vec t = Except.ok l := by
  have h : (AnyVec.from_vec t l c).consume t
      = Except.ok { returned := l, self_drop_events := [] } :=
    consume_ok _ _ rfl
  simp [AnyVec.into_vec, h, Except.map]

/-- C3: pushing values v0..vN-1 of a type onto an empty container
constructed for that type and then consuming the container back as that
type yields exactly the list of pushed values in push order, for any N. -/
theorem claim_C3_push_accumulation (t : VTable α) (xs : List α) :
    ((AnyVec.new t).pushAll t xs).into_vec t = Except.ok xs := by
  obtain ⟨hd, hv⟩ := pushAll_data_vtable t xs (AnyVec.new t)
  have hid : t.id = ((AnyVec.new t).pushAll t xs).vtable.id := by rw [hv]; rfl
  have h := consume_ok ((AnyVec.new t).pushAll t xs) t hid
  unfold AnyVec.into_vec
  rw [h]
  show Except.ok (((AnyVec.new t).pushAll t xs).data) = Except.ok xs
  rw [hd]
  rfl

/-- C1: the claim states that every operation parameterized by a caller
type (into_vec, push, get, first) typechecks and faults with TypeMismatch
on mismatch.  The source checks only in into_vec: push (src/lib.rs:221-235)
performs no typecheck at all (its result never depends on the caller type),
so a wrong-typed push silently mutates the buffer, while into_vec on the
same mismatch does fault; get and first take no caller type parameter in
the source.  This theorem evaluates the code at the failing input: a
container built for u64, pushed with a u8-typed value. -/
theorem claim_C1_push_bypasses_typecheck :
    ((AnyVec.new tU64).push tU8 7).state.data = [7]
    ∧ ((AnyVec.new tU64).push tU8 7).state.vtable.id = tU64.id
    ∧ (AnyVec.new tU64).push tU8 7 = (AnyVec.new tU64).push tU64 7
    ∧ (AnyVec.new tU64).into_vec tU8
        = Except.error (Fault.typeMismatch "u64" "u8") := by
  refine ⟨rfl, rfl, rfl, ?_⟩
  rfl

/-- C8 (amended): push invokes the table grow primitive on every call,
passing length + 1 as the requested additional capacity (so reallocation
can happen even when length is below capacity); it then move-relocates the
value into the slot at index length, increments length by one, retires the
value without running its destructor, and leaves at least one free slot,
never shrinking capacity. -/
theorem claim_C8_push_mechanics (v : AnyVec α) (t : VTable α) (x : α) :
    (v.push t x).grow_request = v.data.length + 1
    ∧ (v.push t x).state.data = v.data ++ [x]
    ∧ (v.push t x).state.data.length = v.data.length + 1
    ∧ (v.push t x).state.data.get? v.data.length = some x
    ∧ (v.push t x).state.data.take v.data.length = v.data
    ∧ (v.push t x).value_drop_events = []
    ∧ (v.push t x).state.vtable = v.vtable
    ∧ v.data.length + 1 ≤ (v.push t x).state.capacity
    ∧ v.capacity ≤ (v.push t x).state.capacity := by
  refine ⟨rfl, rfl, by simp [push_state_data], ?_, ?_, rfl, rfl, ?_, ?_⟩
  · rw [push_state_data, List.get?_eq_getElem?]
    exact List.getElem?_concat_length _ _
  · rw [push_state_data]
    simp [List.take_append_of_le_length (le_refl _)]
  · rw [push_state_capacity]
    have := vecReserve_ge (v.data.length + 1) v.data.length v.capacity (by omega)
    omega
  · rw [push_state_capacity]
    exact vecReserve_ge_capacity _ _ _

/-- C8 counterexample: the claim as stated says the grow primitive is
invoked with min_additional = 1 and only when length equals capacity.  On
a container with length 1 and capacity 4 (not equal), push passes 2 to the
grow primitive; on a container with length 2 and capacity 3 (not equal,
with a free slot), the grow primitive reallocates, changing the capacity
from 3 to 6. -/
theorem claim_C8_counterexample :
    ((AnyVec.from_vec tU64 [5] 4).push tU64 7).grow_request = 2
    ∧ (2 : Nat) ≠ 1
    ∧ (AnyVec.from_vec tU64 [5] 4).data.length = 1
    ∧ (AnyVec.from_vec tU64 [5] 4).capacity = 4
    ∧ (1 : Nat) ≠ 4
    ∧ (AnyVec.from_vec tU64 [1, 2] 3).data.length = 2
    ∧ (AnyVec.from_vec tU64 [1, 2] 3).capacity = 3
    ∧ ((AnyVec.from_vec tU64 [1, 2] 3).push tU64 9).state.capacity = 6 := by
  refine ⟨rfl, by decide, rfl, rfl, by decide, rfl, rfl, rfl⟩

/-- C4: destroying a container of N elements emits exactly N destruction
events, one per element (multiplicities preserved), in index order; the
spans removed by truncate and clear are destroyed in index order; and a
successful consumption returns the full contents while the container
itself emits no destruction events (mem::forget disarms its destructor),
so the returned collection is the sole owner and each element is destroyed
exactly once when that collection is later dropped. -/
theorem claim_C4_drop_exactly_once [DecidableEq α] (v : AnyVec α) (t : VTable α)
    (x : α) (n : Nat) (hn : n ≤ v.data.length) (ht : t.id = v.vtable.id) :
    v.drop_events = v.data
    ∧ v.drop_events.length = v.data.length
    ∧ v.drop_events.count x = v.data.count x
    ∧ (v.truncate n).2 = v.data.drop n
    ∧ v.clear.2 = v.data
    ∧ v.consume t = Except.ok { returned := v.data, self_drop_events := [] }
    ∧ drop_vec_events v.data = v.data := by
  refine ⟨rfl, rfl, rfl, ?_, ?_, consume_ok v t ht, rfl⟩
  · unfold AnyVec.truncate
    rw [if_neg (by omega)]
    rfl
  · unfold AnyVec.clear AnyVec.truncate
    rw [if_neg (by omega)]
    show drop_slice_events (v.data.drop 0) = v.data
    simp [drop_slice_events]

/-- C4 witness at a concrete container of three elements. -/
theorem claim_C4_witness :
    AnyVec.drop_events (AnyVec.from_vec tU64 [1, 2, 3] 3) = [1, 2, 3] :=
  (claim_C4_drop_exactly_once (AnyVec.from_vec tU64 [1, 2, 3] 3) tU64 2 1
    (by decide) rfl).1

/-- C5: truncate to a length at or above the current length leaves the
container unchanged and destroys nothing; truncate below the current
length destroys exactly the elements at indices from the new length up to
the old length, in increasing index order, sets the length to the new
value, leaves the prefix unchanged, and never changes the capacity. -/
theorem claim_C5_truncate (v : AnyVec α) (n : Nat) :
    (v.data.length ≤ n → v.truncate n = (v, []))
    ∧ (n < v.data.length →
        (v.truncate n).1.data = v.data.take n
        ∧ (v.truncate n).1.data.length = n
        ∧ (v.truncate n).2 = v.data.drop n
        ∧ (v.truncate n).1.capacity = v.capacity
        ∧ (v.truncate n).1.vtable = v.vtable
        ∧ ∀ i, i < n → (v.truncate n).1.data.get? i = v.data.get? i) := by
  constructor
  · intro hle
    by_cases hgt : n > v.data.length
    · unfold AnyVec.truncate
      rw [if_pos hgt]
    · have heq : n = v.data.length := by omega
      unfold AnyVec.truncate
      rw [if_neg hgt, heq, List.take_length, List.drop_length]
      rfl
  · intro hlt
    have hgt : ¬ n > v.data.length := by omega
    unfold AnyVec.truncate
    rw [if_neg hgt]
    refine ⟨rfl, ?_, rfl, rfl, rfl, ?_⟩
    · show (v.data.take n).length = n
      simp [List.length_take]
      omega
    · intro i hi
      show (v.data.take n).get? i = v.data.get? i
      rw [List.get?_eq_getElem?, List.get?_eq_getElem?]
      rw [List.getElem?_take_of_lt hi]

/-- C5 witness: the concrete scenario of the spec, with elements 1, 2, 3;
a truncate above the length is the identity, and truncate 1 destroys
exactly the elements at indices 1 and 2, in that order. -/
theorem claim_C5_witness :
    AnyVec.truncate (AnyVec.from_vec tU64 [1, 2, 3] 3) 5
      = (AnyVec.from_vec tU64 [1, 2, 3] 3, [])
    ∧ (AnyVec.truncate (AnyVec.from_vec tU64 [1, 2, 3] 3) 1).2 = [2, 3] :=
  ⟨(claim_C5_truncate (AnyVec.from_vec tU64 [1, 2, 3] 3) 5).1 (by decide),
   ((claim_C5_truncate (AnyVec.from_vec tU64 [1, 2, 3] 3) 1).2 (by decide)).2.2.1⟩

/-- C6: under the container invariant (length at most capacity), get
returns a view of the element at the index for every index below length,
and the normal result none (no panic, no error) for every index at or
above length, including far out-of-range indices. -/
theorem claim_C6_get_bounds (v : AnyVec α) (hinv : v.data.length ≤ v.capacity)
    (i : Nat) :
    (∀ h : i < v.data.length,
        v.get i = Except.ok (some { data := v.data.get ⟨i, h⟩, vtable := v.vtable }))
    ∧ (v.data.length ≤ i → v.get i = Except.ok none) := by
  constructor
  · intro h
    unfold AnyVec.get
    rw [if_neg (by omega)]
    unfold AnyVec.elemAt
    rw [if_neg (by omega)]
    rw [List.get?_eq_getElem?, List.getElem?_eq_getElem h]
    rfl
  · intro h
    unfold AnyVec.get
    rw [if_pos h]

/-- C6 witness: a container of three elements answers a view at index 0
and none at the far out-of-range index 10. -/
theorem claim_C6_witness :
    AnyVec.get (AnyVec.from_vec tU64 [3, 4, 5] 3) 0
      = Except.ok (some { data := 3, vtable := tU64 })
    ∧ AnyVec.get (AnyVec.from_vec tU64 [3, 4, 5] 3) 10 = Except.ok none :=
  ⟨(claim_C6_get_bounds (AnyVec.from_vec tU64 [3, 4, 5] 3) (by decide) 0).1
      (by decide),
   (claim_C6_get_bounds (AnyVec.from_vec tU64 [3, 4, 5] 3) (by decide) 10).2
      (by decide)⟩

/-- C7: two views with tables of different identity always compare
unequal; with matching tables the comparison is exactly the eq primitive
of the table on the two referenced values; a view compared against a
concrete typed value is unequal when the tables differ and otherwise
delegates to the eq primitive of the type.  Concretely, on a container
built from 3, 4, 5 with the u64 table, get 0 yields the view of 3, that
view equals a fresh view over the literal 3 and equals the result of a
second get 0, and get 10 is none. -/
theorem claim_C7_view_equality (a b : AnyRef α) (t : VTable α) (x : α) :
    (a.vtable.id ≠ b.vtable.id → a.eq_ref b = false)
    ∧ (a.vtable.id = b.vtable.id → a.eq_ref b = a.vtable.eq a.data b.data)
    ∧ (a.vtable.id ≠ t.id → a.eq_val t x = false)
    ∧ (a.vtable.id = t.id → a.eq_val t x = a.vtable.eq a.data x)
    ∧ (AnyVec.from_vec tU64 [3, 4, 5] 3).get 0
        = Except.ok (some (AnyRef.new tU64 3))
    ∧ AnyRef.eq_ref (AnyRef.new tU64 3) (AnyRef.new tU64 3) = true
    ∧ AnyRef.eq_val (AnyRef.new tU64 3) tU64 3 = true
    ∧ (AnyVec.from_vec tU64 [3, 4, 5] 3).get 10 = Except.ok none := by
  refine ⟨?_, ?_, ?_, ?_, rfl, rfl, rfl, rfl⟩
  · intro h
    have hb : (a.vtable.id == b.vtable.id) = false := by simp [h]
    simp [AnyRef.eq_ref, VTable.beq, hb]
  · intro h
    have hb : (a.vtable.id == b.vtable.id) = true := by simp [h]
    simp [AnyRef.eq_ref, VTable.beq, hb]
  · intro h
    have hb : (a.vtable.id == t.id) = false := by simp [h]
    simp [AnyRef.eq_val, VTable.beq, hb]
  · intro h
    have hb : (a.vtable.id == t.id) = true := by simp [h]
    simp [AnyRef.eq_val, VTable.beq, hb]

/-- C7 witness: views over distinct tables compare unequal; views over the
same table delegate to the eq primitive of the table. -/
theorem claim_C7_witness :
    AnyRef.eq_ref (AnyRef.new tU64 3) (AnyRef.new tU8 3) = false
    ∧ AnyRef.eq_ref (AnyRef.new tU64 3) (AnyRef.new tU64 4)
        = tU64.eq 3 4 :=
  ⟨(claim_C7_view_equality (AnyRef.new tU64 3) (AnyRef.new tU8 3) tU64 5).1
      (by decide),
   (claim_C7_view_equality (AnyRef.new tU64 3) (AnyRef.new tU64 4) tU64 5).2.1
      rfl⟩

theorem truncate_fst_inv (v : AnyVec α) (n : Nat)
    (h : v.data.length ≤ v.capacity) :
    (v.truncate n).1.data.length ≤ (v.truncate n).1.capacity := by
  unfold AnyVec.truncate
  split
  · exact h
  · show (v.data.take n).length ≤ v.capacity
    simp [List.length_take]
    omega

theorem applyOp_inv (v : AnyVec α) (op : Op α)
    (h : v.data.length ≤ v.capacity) :
    (v.applyOp op).data.length ≤ (v.applyOp op).capacity := by
  cases op with
  | push t x =>
      show (v.push t x).state.data.length ≤ (v.push t x).state.capacity
      rw [push_state_capacity]
      have h1 : (v.push t x).state.data.length = v.data.length + 1 := by
        simp [push_state_data]
      rw [h1]
      have := vecReserve_ge (v.data.length + 1) v.data.length v.capacity (by omega)
      omega
  | reserve n =>
      show v.data.length ≤ vecReserve n v.data.length v.capacity
      exact vecReserve_ge_length _ _ _ h
  | truncate n => exact truncate_fst_inv v n h
  | clear => exact truncate_fst_inv v 0 h

theorem foldl_applyOp_inv (ops : List (Op α)) :
    ∀ v : AnyVec α, v.data.length ≤ v.capacity →
      (List.foldl AnyVec.applyOp v ops).data.length
        ≤ (List.foldl AnyVec.applyOp v ops).capacity := by
  induction ops with
  | nil => intro v hv; exact hv
  | cons op ops ih => intro v hv; exact ih _ (applyOp_inv v op hv)

/-- C9: the invariant that length never exceeds capacity holds after
construction from a typed collection (whose own length is at most its
capacity), after empty construction, and after every operation of any
sequence of public mutating operations (push, reserve, truncate, clear)
starting from any state satisfying the invariant. -/
theorem claim_C9_length_le_capacity (t : VTable α) (l : List α) (c : Nat)
    (hl : l.length ≤ c) (v : AnyVec α) (hv : v.data.length ≤ v.capacity)
    (ops : List (Op α)) :
    (AnyVec.from_vec t l c).data.length ≤ (AnyVec.from_vec t l c).capacity
    ∧ (AnyVec.new t).data.length ≤ (AnyVec.new t).capacity
    ∧ (List.foldl AnyVec.applyOp v ops).data.length
        ≤ (List.foldl AnyVec.applyOp v ops).capacity :=
  ⟨hl, Nat.le_refl 0, foldl_applyOp_inv ops v hv⟩

/-- C9 witness: a concrete operation sequence on a concrete container. -/
theorem claim_C9_witness :
    (List.foldl AnyVec.applyOp (AnyVec.from_vec tU64 [9] 1)
        [Op.push tU64 5, Op.truncate 0, Op.clear, Op.reserve 7]).data.length
      ≤ (List.foldl AnyVec.applyOp (AnyVec.from_vec tU64 [9] 1)
        [Op.push tU64 5, Op.truncate 0, Op.clear, Op.reserve 7]).capacity :=
  (claim_C9_length_le_capacity tU64 [1, 2] 2 (by decide)
    (AnyVec.from_vec tU64 [9] 1) (by decide)
    [Op.push tU64 5, Op.truncate 0, Op.clear, Op.reserve 7]).2.2

/-- C10: in truncate, the length field is set to the new, smaller value
before any destructor of the removed span runs: the first event of the
truncate trace is the length update, followed only by the destruction
events of the removed span; the retained prefix (of length exactly the new
length) and the removed span partition the original contents, so no
element being destroyed is still counted as live. -/
theorem claim_C10_length_set_before_drop (v : AnyVec α) (n : Nat)
    (h : n < v.data.length) :
    v.truncateTrace n
        = TruncEvent.set_length n :: (v.data.drop n).map TruncEvent.dropped
    ∧ (v.truncateTrace n).head? = some (TruncEvent.set_length n)
    ∧ v.data.take n ++ v.data.drop n = v.data
    ∧ (v.data.take n).length = n := by
  have hgt : ¬ n > v.data.length := by omega
  unfold AnyVec.truncateTrace
  rw [if_neg hgt]
  refine ⟨rfl, rfl, List.take_append_drop _ _, ?_⟩
  simp [List.length_take]
  omega

/-- C10 witness: the trace of truncating a three element container to
length 1 begins with the length update and then drops indices 1 and 2. -/
theorem claim_C10_witness :
    AnyVec.truncateTrace (AnyVec.from_vec tU64 [1, 2, 3] 3) 1
      = [TruncEvent.set_length 1, TruncEvent.dropped 2, TruncEvent.dropped 3] :=
  (claim_C10_length_set_before_drop (AnyVec.from_vec tU64 [1, 2, 3] 3) 1
    (by decide)).1
